import Mathlib

/-!
# Todo-AppV2 — verification of the concurrency-serialization core

Shallow embedding of the storage layer (`storage/storage.go`) and the command
serializer ("actor", `actor/actor.go`) of the Todo-AppV2 repository.

Modelling conventions:
* Go's `map[int]Item` is modelled as an association list with unique keys
  (`Items`); `mapInsert` / `mapErase` / `lookupItem` give the usual map
  semantics (replace on existing key, append on fresh key, first-match lookup).
* `time.Now().UTC()` is abstracted as a `Nat` timestamp supplied by the
  environment (`Env.now`); its value is carried losslessly, which is all the
  claims need.
* File I/O is abstracted by an environment `Env`: `loadResult` is what
  `storage.Load` would return for the backing file, and `saveOk` says whether
  the physical write inside `storage.Save` succeeds.  Each storage mutation
  returns, besides its result and the new in-memory state, a `CommitLog`
  recording the file writes attempted by `commitFile` and the `Save` errors
  that `commitFile` discarded.
* Go errors created with `errors.New` are represented by the enumeration
  `Err`, one constructor per distinct error the embedded code can produce.
-/

namespace Todo

/-- `storage.Item`: `{ID int; Description string; Status string; Created time.Time}`.
The timestamp is abstracted as a `Nat`. -/
structure Item where
  id : Int
  description : String
  status : String
  created : Nat
deriving DecidableEq, Repr

/-- `storage.Items = map[int]Item`, modelled as an association list with
unique keys. -/
abbrev Items := List (Int × Item)

/-- Go map read `itemsList[k]`: the binding with key `k`, if any. -/
def lookupItem : Items → Int → Option Item
  | [], _ => none
  | p :: ps, k => if p.1 = k then some p.2 else lookupItem ps k

/-- Go map write `itemsList[k] = v`: replace the binding if the key exists,
otherwise add a new binding. -/
def mapInsert : Items → Int → Item → Items
  | [], k, v => [(k, v)]
  | p :: ps, k, v => if p.1 = k then (k, v) :: ps else p :: mapInsert ps k v

/-- Go `delete(itemsList, k)`: drop the binding with key `k`. -/
def mapErase : Items → Int → Items
  | [], _ => []
  | p :: ps, k => if p.1 = k then mapErase ps k else p :: mapErase ps k

/-- Well-formedness of the association-list representation: keys are unique.
Every value of a Go `map[int]Item` satisfies this. -/
def ItemsWF (m : Items) : Prop := (m.map Prod.fst).Nodup

instance (m : Items) : Decidable (ItemsWF m) := by
  unfold ItemsWF; infer_instance

/-- The distinct errors produced by the embedded code (`errors.New` values in
`storage.go`) plus the I/O and JSON-decode failures of the file layer. -/
inductive Err where
  | ioError
  | parseError
  | descriptionEmpty
  | invalidStatus
  | invalidID
  | itemNotFound
  | noItemsAvailable
deriving DecidableEq, Repr

/-- External environment of one command: what `storage.Load` would return for
the backing file, whether the physical write inside `storage.Save` succeeds,
and the current clock value used by `newItem`. -/
structure Env where
  loadResult : Except Err Items
  saveOk : Bool
  now : Nat

/-- The package-level mutable globals of `storage.go`:
`itemsList Items` and `itemsDatafile string`. -/
structure GoState where
  itemsList : Items
  itemsDatafile : String
deriving DecidableEq, Repr

/-- `storage.newItem`. -/
def newItem (id : Int) (description status : String) (now : Nat) : Item :=
  { id := id, description := description, status := status, created := now }

/-- `storage.collectKeys`: the keys of the map, as a list. -/
def collectKeys (data : Items) : List Int :=
  data.map (fun p => p.1)

/-- `storage.highestKey`: `key := 0; for _, i := range keys { if i > key { key = i } }`. -/
def highestKey (keys : List Int) : Int :=
  keys.foldl (fun key i => if i > key then i else key) 0

/-- The write performed inside `storage.Save` (marshalling of the in-memory
map never fails for these values; the file write fails iff `saveOk` is
false). -/
def saveToFile (env : Env) : Except Err Unit :=
  if env.saveOk then Except.ok () else Except.error Err.ioError

/-- Record of the file writes a storage operation attempted: the contents
passed to `Save` and the `Save` errors that `commitFile` discarded. -/
structure CommitLog where
  saves : List Items
  dropped : List Err
deriving DecidableEq, Repr

/-- No call to `commitFile` happened. -/
def noCommit : CommitLog := { saves := [], dropped := [] }

/-- `storage.commitFile`: calls `Save(ctx, itemsDatafile)` and ignores the
returned error (the guard `itemsList != nil` always holds in this model, as
the global is initialised to an empty, non-nil map). -/
def commitFile (env : Env) (st : GoState) : CommitLog :=
  match saveToFile env with
  | Except.ok () => { saves := [st.itemsList], dropped := [] }
  | Except.error e => { saves := [st.itemsList], dropped := [e] }

deriving instance DecidableEq for Except

/-- Result of a storage operation that may mutate the globals: the Go return
value, the new globals, and the log of file writes. -/
structure MutResult (α : Type) where
  result : Except Err α
  state : GoState
  log : CommitLog
deriving DecidableEq, Repr

/-- `storage.CreateItem`. -/
def createItem (env : Env) (st : GoState) (description status : String) :
    MutResult Item :=
  if description = "" then
    { result := Except.error Err.descriptionEmpty, state := st, log := noCommit }
  else if status ≠ "" ∧ status ≠ "not_started" ∧ status ≠ "in_progress" ∧
      status ≠ "completed" then
    { result := Except.error Err.invalidStatus, state := st, log := noCommit }
  else
    let status' := if status ≠ "" then status else "not_started"
    let itemKeys := collectKeys st.itemsList
    let nextKey := highestKey itemKeys + 1
    let item := newItem nextKey description status' env.now
    let st' : GoState := { st with itemsList := mapInsert st.itemsList nextKey item }
    { result := Except.ok item, state := st', log := commitFile env st' }

/-- `storage.UpdateItem`. -/
def updateItem (env : Env) (st : GoState) (item : Item) : MutResult Item :=
  if item.id ≤ 0 then
    { result := Except.error Err.invalidID, state := st, log := noCommit }
  else if item.description = "" then
    { result := Except.error Err.descriptionEmpty, state := st, log := noCommit }
  else if item.status ≠ "not_started" ∧ item.status ≠ "in_progress" ∧
      item.status ≠ "completed" then
    { result := Except.error Err.invalidStatus, state := st, log := noCommit }
  else
    match lookupItem st.itemsList item.id with
    | none => { result := Except.error Err.itemNotFound, state := st, log := noCommit }
    | some _ =>
      let st' : GoState := { st with itemsList := mapInsert st.itemsList item.id item }
      { result := Except.ok item, state := st', log := commitFile env st' }

/-- `storage.DeleteItem`. -/
def deleteItem (env : Env) (st : GoState) (index : Int) : MutResult Unit :=
  if index ≤ 0 then
    { result := Except.error Err.invalidID, state := st, log := noCommit }
  else
    match lookupItem st.itemsList index with
    | none => { result := Except.error Err.itemNotFound, state := st, log := noCommit }
    | some _ =>
      let st' : GoState := { st with itemsList := mapErase st.itemsList index }
      { result := Except.ok (), state := st', log := commitFile env st' }

/-- `storage.GetItemByID`. -/
def getItemByID (m : Items) (id : Int) : Except Err Item :=
  if id ≤ 0 then Except.error Err.invalidID
  else if m.length > 0 then
    match lookupItem m id with
    | some item => Except.ok item
    | none => Except.error Err.itemNotFound
  else Except.error Err.noItemsAvailable

/-- `storage.GetAllItems`. -/
def getAllItems (m : Items) : Except Err Items :=
  if m.length > 0 then Except.ok m
  else Except.error Err.noItemsAvailable

/-- `storage.Open`: on a successful `Load`, install the loaded map and the
datafile path; on failure, return the error and leave the globals alone. -/
def openStorage (env : Env) (st : GoState) (datafile : String) :
    Except Err Unit × GoState :=
  match env.loadResult with
  | Except.error e => (Except.error e, st)
  | Except.ok items => (Except.ok (), { itemsList := items, itemsDatafile := datafile })

/-- `actor.reloadStorage`: `if storageFile := storage.GetDataFile(); storageFile != "" { _ = storage.Open(ctx, storageFile) }` —
the error returned by `Open` is explicitly discarded. -/
def reloadStorage (env : Env) (st : GoState) : GoState :=
  if st.itemsDatafile ≠ "" then (openStorage env st st.itemsDatafile).2
  else st

/-- `actor.CreateCmd`. -/
def CreateCmd : String := "CreateCmd"
/-- `actor.UpdateCmd`. -/
def UpdateCmd : String := "UpdateCmd"
/-- `actor.DeleteCmd`. -/
def DeleteCmd : String := "DeleteCmd"
/-- `actor.ListAllCmd`. -/
def ListAllCmd : String := "ListAllCmd"
/-- `actor.ListCmd`. -/
def ListCmd : String := "ListCmd"

/-- `actor.Command` (without the reply channel, which is modelled by the
`sends` field of `StepResult`). -/
structure Command where
  type : String
  id : Int
  description : String
  status : String
deriving DecidableEq, Repr

/-- `actor.Response`. Go zero values: `Error=nil`, `Item` zero, `Items` nil. -/
structure Response where
  error : Option Err
  item : Item
  items : Items
deriving DecidableEq, Repr

/-- The zero value of `storage.Item`. -/
def defaultItem : Item := { id := 0, description := "", status := "", created := 0 }

/-- `Response{Error: err}`. -/
def errResponse (e : Err) : Response :=
  { error := some e, item := defaultItem, items := [] }

/-- `Response{Item: item}`. -/
def itemResponse (it : Item) : Response :=
  { error := none, item := it, items := [] }

/-- `Response{Items: items}`. -/
def itemsResponse (ms : Items) : Response :=
  { error := none, item := defaultItem, items := ms }

/-- Result of the serializer loop body for one dequeued command: the new
globals, the responses sent on the command's reply channel, and the log of
file writes. -/
structure StepResult where
  state : GoState
  sends : List Response
  log : CommitLog
deriving DecidableEq, Repr

/-- One iteration of `actor.run` for a dequeued command: the `switch` on
`cmd.Type`.  A `Type` outside the five known commands sends nothing (the
`switch` has no `default` case). -/
def runCmd (env : Env) (st : GoState) (cmd : Command) : StepResult :=
  if cmd.type = CreateCmd then
    match (createItem env (reloadStorage env st) cmd.description cmd.status).result with
    | Except.error e =>
      { state := (createItem env (reloadStorage env st) cmd.description cmd.status).state,
        sends := [errResponse e],
        log := (createItem env (reloadStorage env st) cmd.description cmd.status).log }
    | Except.ok item =>
      { state := (createItem env (reloadStorage env st) cmd.description cmd.status).state,
        sends := [itemResponse item],
        log := (createItem env (reloadStorage env st) cmd.description cmd.status).log }
  else if cmd.type = UpdateCmd then
    match (updateItem env (reloadStorage env st)
        { id := cmd.id, description := cmd.description, status := cmd.status,
          created := 0 }).result with
    | Except.error e =>
      { state := (updateItem env (reloadStorage env st)
          { id := cmd.id, description := cmd.description, status := cmd.status,
            created := 0 }).state,
        sends := [errResponse e],
        log := (updateItem env (reloadStorage env st)
          { id := cmd.id, description := cmd.description, status := cmd.status,
            created := 0 }).log }
    | Except.ok updated =>
      { state := (updateItem env (reloadStorage env st)
          { id := cmd.id, description := cmd.description, status := cmd.status,
            created := 0 }).state,
        sends := [itemResponse updated],
        log := (updateItem env (reloadStorage env st)
          { id := cmd.id, description := cmd.description, status := cmd.status,
            created := 0 }).log }
  else if cmd.type = DeleteCmd then
    match (deleteItem env (reloadStorage env st) cmd.id).result with
    | Except.error e =>
      { state := (deleteItem env (reloadStorage env st) cmd.id).state,
        sends := [errResponse e],
        log := (deleteItem env (reloadStorage env st) cmd.id).log }
    | Except.ok _ =>
      { state := (deleteItem env (reloadStorage env st) cmd.id).state,
        sends := [{ error := none, item := defaultItem, items := [] }],
        log := (deleteItem env (reloadStorage env st) cmd.id).log }
  else if cmd.type = ListAllCmd then
    match getAllItems (reloadStorage env st).itemsList with
    | Except.error e =>
      { state := reloadStorage env st, sends := [errResponse e], log := noCommit }
    | Except.ok items =>
      { state := reloadStorage env st, sends := [itemsResponse items], log := noCommit }
  else if cmd.type = ListCmd then
    match getItemByID (reloadStorage env st).itemsList cmd.id with
    | Except.error e =>
      { state := reloadStorage env st, sends := [errResponse e], log := noCommit }
    | Except.ok item =>
      { state := reloadStorage env st, sends := [itemResponse item], log := noCommit }
  else
    { state := st, sends := [], log := noCommit }

/-- The command a Facade `ListAll` call submits (other fields are Go zero
values). -/
def listAllCommand : Command :=
  { type := ListAllCmd, id := 0, description := "", status := "" }

/-- The command a Facade `Delete(id)` call submits. -/
def deleteCommand (id : Int) : Command :=
  { type := DeleteCmd, id := id, description := "", status := "" }

end Todo

namespace Todo

-- Session traces of storage-level Create/Delete operations (for the ID-reuse
-- claims).

/-- A Create or Delete request, as issued within one session. -/
inductive Op where
  | createOp (description status : String)
  | deleteOp (id : Int)

/-- Trace state: the storage globals plus the IDs deleted so far. -/
structure TraceState where
  st : GoState
  deleted : List Int
deriving Repr

/-- Execute one operation against the storage layer, recording successful
deletions. -/
def stepOp (env : Env) (ts : TraceState) : Op → TraceState
  | Op.createOp d s =>
    let r := createItem env ts.st d s
    { ts with st := r.state }
  | Op.deleteOp i =>
    let r := deleteItem env ts.st i
    match r.result with
    | Except.ok _ => { st := r.state, deleted := ts.deleted ++ [i] }
    | Except.error _ => { ts with st := r.state }

/-- Execute a sequence of operations. -/
def runOps (env : Env) (ts : TraceState) (ops : List Op) : TraceState :=
  ops.foldl (stepOp env) ts

/-- The session state after `storage.Open` on an empty data file. -/
def initialTrace : TraceState :=
  { st := { itemsList := [], itemsDatafile := "todos.json" }, deleted := [] }

end Todo

namespace Todo

-- The JSON file layer (for the serialization round-trip claim).
-- `encoding/json` marshals a `map[int]Item` as one JSON object whose keys are
-- the decimal renderings of the integer keys, emitted in ascending byte-wise
-- order of those renderings; each entry's scalar fields are encoded
-- losslessly.  The file is modelled as the list of (key, item) entries in
-- file order; the byte-wise ordering of the decimal key strings is computed
-- explicitly below.

/-- Decimal digits of `n` as byte values (`'0'` = 48), most significant
first; the first argument is fuel (any bound ≥ the digit count works, and
`n + 1` always suffices). -/
def digitsAux : Nat → Nat → List Nat
  | 0, _ => []
  | fuel + 1, n => if n < 10 then [n + 48] else digitsAux fuel (n / 10) ++ [n % 10 + 48]

/-- The bytes of the decimal rendering of an integer key (`'-'` = 45). -/
def keyBytes : Int → List Nat
  | Int.ofNat n => digitsAux (n + 1) n
  | Int.negSucc k => 45 :: digitsAux (k + 2) (k + 1)

/-- Byte-wise lexicographic comparison, as Go's `sort` of JSON object keys
uses on the rendered key strings. -/
def lexLE : List Nat → List Nat → Bool
  | [], _ => true
  | _ :: _, [] => false
  | a :: as, b :: bs => if a < b then true else if b < a then false else lexLE as bs

/-- File ordering of two entries: their decimal key renderings compared
byte-wise. -/
def entryLE (p q : Int × Item) : Prop :=
  lexLE (keyBytes p.1) (keyBytes q.1) = true

instance : DecidableRel entryLE := fun p q => by
  unfold entryLE; infer_instance

/-- `storage.Save`, at the level of the file's entry list: the map's entries
in ascending key-string order (this is the content `json.Marshal` writes). -/
def saveFile (m : Items) : List (Int × Item) :=
  List.insertionSort entryLE m

/-- `storage.Load` of a well-formed file produced by `Save`: `json.Unmarshal`
rebuilds the map from the file's entries (`loadItem` on non-empty data). -/
def loadFile (l : List (Int × Item)) : Items := l

/-- Classification of the error taxonomy in §7 of the specification: the
validation failures are exactly the input checks at the top of `CreateItem`,
`UpdateItem` and `DeleteItem` (the code's `// Validate inputs` blocks). -/
def isValidationErr : Err → Bool
  | Err.descriptionEmpty => true
  | Err.invalidStatus => true
  | Err.invalidID => true
  | _ => false

/-- A sample stored item, used by the concrete instantiations below. -/
def sampleItem (n : Int) : Item :=
  { id := n, description := "buy milk", status := "not_started", created := 7 }

/-- A benign environment: the backing file holds an empty collection and
writes succeed. -/
def envOk : Env := { loadResult := Except.ok [], saveOk := true, now := 0 }

/-- An environment whose disk fails both the reload read and the persist
write. -/
def envBad : Env := { loadResult := Except.error Err.ioError, saveOk := false, now := 0 }

/-- A one-item store whose backing file path is set. -/
def stOne : GoState := { itemsList := [(1, sampleItem 1)], itemsDatafile := "todos.json" }

/-- A two-item store with no backing file path (reload is then a no-op). -/
def stTwo : GoState :=
  { itemsList := [(1, sampleItem 1), (2, sampleItem 2)], itemsDatafile := "" }

end Todo

namespace Todo

-- Auxiliary lemmas about the embedded map operations.

lemma foldlMax_ge_init (keys : List Int) (a : Int) :
    a ≤ keys.foldl (fun key i => if i > key then i else key) a := by
  induction keys generalizing a with
  | nil => simp
  | cons x xs ih =>
    simp only [List.foldl_cons]
    by_cases h : x > a
    · simp only [if_pos h]
      exact le_trans (le_of_lt h) (ih x)
    · simp only [if_neg h]
      exact ih a

lemma foldlMax_ge_mem (keys : List Int) (a : Int) :
    ∀ k ∈ keys, k ≤ keys.foldl (fun key i => if i > key then i else key) a := by
  induction keys generalizing a with
  | nil => simp
  | cons x xs ih =>
    intro k hk
    simp only [List.foldl_cons]
    rcases List.mem_cons.mp hk with hk | hk
    · subst hk
      refine le_trans ?_ (foldlMax_ge_init xs _)
      by_cases h : k > a
      · simp [if_pos h]
      · simp only [if_neg h]
        omega
    · exact ih _ k hk

lemma highestKey_nonneg (keys : List Int) : 0 ≤ highestKey keys :=
  foldlMax_ge_init keys 0

lemma highestKey_ge (keys : List Int) : ∀ k ∈ keys, k ≤ highestKey keys :=
  foldlMax_ge_mem keys 0

lemma foldlMax_mem_or_init (keys : List Int) (a : Int) :
    keys.foldl (fun key i => if i > key then i else key) a ∈ keys ∨
      keys.foldl (fun key i => if i > key then i else key) a = a := by
  induction keys generalizing a with
  | nil => simp
  | cons x xs ih =>
    simp only [List.foldl_cons]
    by_cases hx : x > a
    · rw [if_pos hx]
      rcases ih x with h | h
      · exact Or.inl (List.mem_cons_of_mem _ h)
      · exact Or.inl (List.mem_cons.mpr (Or.inl h))
    · rw [if_neg hx]
      rcases ih a with h | h
      · exact Or.inl (List.mem_cons_of_mem _ h)
      · exact Or.inr h

lemma highestKey_mem (keys : List Int) (hne : keys ≠ [])
    (hpos : ∀ k ∈ keys, 0 < k) : highestKey keys ∈ keys := by
  rcases foldlMax_mem_or_init keys 0 with h | h
  · exact h
  · exfalso
    rcases keys with _ | ⟨x, xs⟩
    · exact hne rfl
    · have hx := highestKey_ge (x :: xs) x (List.mem_cons_self x xs)
      have hxpos := hpos x (List.mem_cons_self x xs)
      unfold highestKey at hx
      omega

lemma lookupItem_mapInsert_self (m : Items) (k : Int) (v : Item) :
    lookupItem (mapInsert m k v) k = some v := by
  induction m with
  | nil => simp [mapInsert, lookupItem]
  | cons p ps ih =>
    by_cases hp : p.1 = k
    · simp [mapInsert, lookupItem, hp]
    · simp [mapInsert, lookupItem, hp, ih]

lemma lookupItem_mapInsert_of_ne (m : Items) (k k' : Int) (v : Item)
    (h : k' ≠ k) : lookupItem (mapInsert m k v) k' = lookupItem m k' := by
  induction m with
  | nil => simp [mapInsert, lookupItem, Ne.symm h]
  | cons p ps ih =>
    by_cases hp : p.1 = k
    · have hk' : ¬ p.1 = k' := fun hc => h (hc ▸ hp ▸ rfl)
      simp [mapInsert, lookupItem, hp, Ne.symm h, hk']
    · by_cases hk' : p.1 = k'
      · simp [mapInsert, lookupItem, hp, hk', h]
      · simp [mapInsert, lookupItem, hp, hk', ih]

lemma lookupItem_mapErase_self (m : Items) (k : Int) :
    lookupItem (mapErase m k) k = none := by
  induction m with
  | nil => simp [mapErase, lookupItem]
  | cons p ps ih =>
    by_cases hp : p.1 = k
    · simp [mapErase, hp, ih]
    · simp [mapErase, lookupItem, hp, ih]

lemma lookupItem_eq_none_iff (m : Items) (k : Int) :
    lookupItem m k = none ↔ k ∉ collectKeys m := by
  induction m with
  | nil => simp [lookupItem, collectKeys]
  | cons p ps ih =>
    by_cases hp : p.1 = k
    · simp [lookupItem, collectKeys, hp]
    · simp only [lookupItem, if_neg hp, collectKeys, List.map_cons, List.mem_cons] at *
      constructor
      · intro hnone hc
        rcases hc with hc | hc
        · exact hp hc.symm
        · exact (ih.mp hnone) hc
      · intro hnot
        exact ih.mpr (fun hc => hnot (Or.inr hc))

lemma lookupItem_some_mem (m : Items) (k : Int) (v : Item)
    (h : lookupItem m k = some v) : (k, v) ∈ m := by
  induction m with
  | nil => simp [lookupItem] at h
  | cons p ps ih =>
    by_cases hp : p.1 = k
    · simp only [lookupItem, if_pos hp] at h
      have hv : p.2 = v := by injection h
      have hpv : p = (k, v) := by
        cases p
        simp only [Prod.mk.injEq]
        exact ⟨hp, hv⟩
      exact List.mem_cons.mpr (Or.inl hpv.symm)
    · simp only [lookupItem, if_neg hp] at h
      exact List.mem_cons_of_mem _ (ih h)

lemma lookupItem_of_mem_wf (m : Items) (k : Int) (v : Item)
    (hwf : ItemsWF m) (h : (k, v) ∈ m) : lookupItem m k = some v := by
  induction m with
  | nil => simp at h
  | cons p ps ih =>
    unfold ItemsWF at hwf
    simp only [List.map_cons, List.nodup_cons] at hwf
    rcases List.mem_cons.mp h with h | h
    · subst h
      simp [lookupItem]
    · by_cases hp : p.1 = k
      · exfalso
        have : k ∈ ps.map Prod.fst := List.mem_map.mpr ⟨(k, v), h, rfl⟩
        exact hwf.1 (hp ▸ this)
      · simp only [lookupItem, if_neg hp]
        exact ih hwf.2 h

lemma ItemsWF_of_perm (m m' : Items) (hp : m.Perm m') (hwf : ItemsWF m) :
    ItemsWF m' := by
  unfold ItemsWF at *
  exact (hp.map Prod.fst).nodup_iff.mp hwf

lemma createItem_of_valid (env : Env) (st : GoState) (d s : String)
    (hd : d ≠ "")
    (hs : s = "" ∨ s = "not_started" ∨ s = "in_progress" ∨ s = "completed") :
    createItem env st d s =
      (let nextKey := highestKey (collectKeys st.itemsList) + 1
       let item := newItem nextKey d (if s ≠ "" then s else "not_started") env.now
       let st' : GoState := { st with itemsList := mapInsert st.itemsList nextKey item }
       { result := Except.ok item, state := st', log := commitFile env st' }) := by
  have hns : ¬ (s ≠ "" ∧ s ≠ "not_started" ∧ s ≠ "in_progress" ∧ s ≠ "completed") := by
    rintro ⟨h1, h2, h3, h4⟩
    rcases hs with h | h | h | h <;> contradiction
  unfold createItem
  rw [if_neg hd, if_neg hns]

lemma createItem_error_effects (env : Env) (st : GoState) (d s : String) (e : Err)
    (h : (createItem env st d s).result = Except.error e) :
    (e = Err.descriptionEmpty ∨ e = Err.invalidStatus) ∧
      (createItem env st d s).state = st ∧
      (createItem env st d s).log = noCommit := by
  revert h
  unfold createItem
  split
  · intro h
    injection h with h'
    exact ⟨Or.inl h'.symm, rfl, rfl⟩
  · split
    · intro h
      injection h with h'
      exact ⟨Or.inr h'.symm, rfl, rfl⟩
    · intro h
      exact absurd h (by simp)

lemma createItem_ok_shape (env : Env) (st : GoState) (d s : String) (it : Item)
    (h : (createItem env st d s).result = Except.ok it) :
    it.id = highestKey (collectKeys st.itemsList) + 1 ∧
      it.description = d ∧
      (createItem env st d s).state.itemsList = mapInsert st.itemsList it.id it := by
  revert h
  unfold createItem
  split
  · intro h
    exact absurd h (by simp)
  · split
    · intro h
      exact absurd h (by simp)
    · intro h
      injection h with h'
      subst h'
      exact ⟨rfl, rfl, rfl⟩

lemma updateItem_error_effects (env : Env) (st : GoState) (it : Item) (e : Err)
    (h : (updateItem env st it).result = Except.error e) :
    (e = Err.invalidID ∨ e = Err.descriptionEmpty ∨ e = Err.invalidStatus ∨
        e = Err.itemNotFound) ∧
      (updateItem env st it).state = st ∧
      (updateItem env st it).log = noCommit := by
  revert h
  unfold updateItem
  split
  · intro h
    injection h with h'
    exact ⟨Or.inl h'.symm, rfl, rfl⟩
  · split
    · intro h
      injection h with h'
      exact ⟨Or.inr (Or.inl h'.symm), rfl, rfl⟩
    · split
      · intro h
        injection h with h'
        exact ⟨Or.inr (Or.inr (Or.inl h'.symm)), rfl, rfl⟩
      · split
        · intro h
          injection h with h'
          exact ⟨Or.inr (Or.inr (Or.inr h'.symm)), rfl, rfl⟩
        · intro h
          exact absurd h (by simp)

lemma deleteItem_error_effects (env : Env) (st : GoState) (i : Int) (e : Err)
    (h : (deleteItem env st i).result = Except.error e) :
    (e = Err.invalidID ∨ e = Err.itemNotFound) ∧
      (deleteItem env st i).state = st ∧
      (deleteItem env st i).log = noCommit := by
  revert h
  unfold deleteItem
  split
  · intro h
    injection h with h'
    exact ⟨Or.inl h'.symm, rfl, rfl⟩
  · split
    · intro h
      injection h with h'
      exact ⟨Or.inr h'.symm, rfl, rfl⟩
    · intro h
      exact absurd h (by simp)

lemma deleteItem_ok_shape (env : Env) (st : GoState) (i : Int)
    (h : (deleteItem env st i).result = Except.ok ()) :
    0 < i ∧ lookupItem st.itemsList i ≠ none ∧
      (deleteItem env st i).state.itemsList = mapErase st.itemsList i := by
  revert h
  unfold deleteItem
  split
  · intro h
    exact absurd h (by simp)
  · split
    · intro h
      exact absurd h (by simp)
    · intro h
      refine ⟨by omega, ?_, rfl⟩
      simp_all

lemma getItemByID_error_cases (m : Items) (i : Int) (e : Err)
    (h : getItemByID m i = Except.error e) :
    e = Err.invalidID ∨ e = Err.itemNotFound ∨ e = Err.noItemsAvailable := by
  revert h
  unfold getItemByID
  split
  · intro h
    injection h with h'
    exact Or.inl h'.symm
  · split
    · split
      · intro h
        exact absurd h (by simp)
      · intro h
        injection h with h'
        exact Or.inr (Or.inl h'.symm)
    · intro h
      injection h with h'
      exact Or.inr (Or.inr h'.symm)

lemma getAllItems_error_cases (m : Items) (e : Err)
    (h : getAllItems m = Except.error e) : e = Err.noItemsAvailable := by
  revert h
  unfold getAllItems
  split
  · intro h
    exact absurd h (by simp)
  · intro h
    injection h with h'
    exact h'.symm

lemma lookupItem_eq_of_perm (m m' : Items) (hp : m.Perm m')
    (hwf : ItemsWF m) (k : Int) : lookupItem m' k = lookupItem m k := by
  cases hv : lookupItem m k with
  | some v =>
    exact lookupItem_of_mem_wf m' k v (ItemsWF_of_perm m m' hp hwf)
      (hp.subset (lookupItem_some_mem m k v hv))
  | none =>
    rw [lookupItem_eq_none_iff] at hv ⊢
    intro hc
    apply hv
    unfold collectKeys at *
    exact (hp.map (fun p : Int × Item => p.1)).mem_iff.mpr hc

lemma mapInsert_ne_nil (m : Items) (k : Int) (v : Item) :
    mapInsert m k v ≠ [] := by
  cases m with
  | nil => simp [mapInsert]
  | cons p ps =>
    by_cases hp : p.1 = k
    · simp [mapInsert, hp]
    · simp [mapInsert, hp]

lemma lexLE_total (a b : List Nat) : lexLE a b = true ∨ lexLE b a = true := by
  induction a generalizing b with
  | nil => exact Or.inl rfl
  | cons x as ih =>
    cases b with
    | nil => exact Or.inr rfl
    | cons y bs =>
      rcases Nat.lt_trichotomy x y with h | h | h
      · left
        simp [lexLE, h]
      · subst h
        rcases ih bs with hr | hr
        · left
          simp [lexLE, hr]
        · right
          simp [lexLE, hr]
      · right
        simp [lexLE, h]

lemma lexLE_trans : ∀ (a b c : List Nat),
    lexLE a b = true → lexLE b c = true → lexLE a c = true
  | [], _, _, _, _ => rfl
  | _ :: _, [], _, hab, _ => by simp [lexLE] at hab
  | _ :: _, _ :: _, [], _, hbc => by simp [lexLE] at hbc
  | x :: as, y :: bs, z :: cs, hab, hbc => by
    simp only [lexLE] at hab hbc ⊢
    rcases Nat.lt_trichotomy x y with h1 | h1 | h1
    · rcases Nat.lt_trichotomy y z with h2 | h2 | h2
      · rw [if_pos (Nat.lt_trans h1 h2)]
      · subst h2
        rw [if_pos h1]
      · rw [if_neg (by omega), if_pos h2] at hbc
        simp at hbc
    · subst h1
      rw [if_neg (by omega), if_neg (by omega)] at hab
      rcases Nat.lt_trichotomy x z with h2 | h2 | h2
      · rw [if_pos h2]
      · subst h2
        rw [if_neg (by omega), if_neg (by omega)] at hbc
        rw [if_neg (by omega), if_neg (by omega)]
        exact lexLE_trans as bs cs hab hbc
      · rw [if_neg (by omega), if_pos h2] at hbc
        simp at hbc
    · rw [if_neg (by omega), if_pos h1] at hab
      simp at hab

instance : IsTotal (Int × Item) entryLE where
  total p q := lexLE_total (keyBytes p.1) (keyBytes q.1)

instance : IsTrans (Int × Item) entryLE where
  trans p q r hpq hqr := lexLE_trans (keyBytes p.1) (keyBytes q.1) (keyBytes r.1) hpq hqr

end Todo

namespace Todo

-- Claim C2 --------------------------------------------------------------

/-- C2, counterexample: the claim "no Create returns an ID equal to the ID of
a previously deleted item" fails on the session Create("a"), Create("b"),
Delete(2), Create("c"): the final Create returns ID 2, which was deleted. -/
theorem deletedIdReused_cex :
    2 ∈ (runOps envOk initialTrace
        [Op.createOp "a" "", Op.createOp "b" "", Op.deleteOp 2]).deleted ∧
      (createItem envOk (runOps envOk initialTrace
          [Op.createOp "a" "", Op.createOp "b" "", Op.deleteOp 2]).st "c" "").result =
        Except.ok { id := 2, description := "c", status := "not_started", created := 0 } := by
  decide

/-- C2, amended: in any session of Create/Delete operations, a Create never
returns the ID of a previously deleted item when that ID is at most the
highest ID currently in the collection (equivalently, the fresh ID exceeds
every current ID); only a deleted ID that exceeds every remaining ID — such
as the most recently assigned maximum — can be reassigned. -/
theorem createNeverReusesDominatedDeletedId (env : Env) (ops : List Op)
    (d : Int) (desc status : String) (it : Item)
    (_hdel : d ∈ (runOps env initialTrace ops).deleted)
    (hle : d ≤ highestKey (collectKeys (runOps env initialTrace ops).st.itemsList))
    (hok : (createItem env (runOps env initialTrace ops).st desc status).result =
      Except.ok it) :
    it.id ≠ d := by
  have hid := (createItem_ok_shape env _ desc status it hok).1
  omega

/-- Witness for `createNeverReusesDominatedDeletedId` at the session
Create("a"), Create("b"), Delete(1) followed by Create("c"). -/
theorem createNeverReusesDominatedDeletedId_witness :
    ({ id := 3, description := "c", status := "not_started", created := 0 } : Item).id ≠ 1 :=
  createNeverReusesDominatedDeletedId envOk
    [Op.createOp "a" "", Op.createOp "b" "", Op.deleteOp 1] 1 "c" ""
    { id := 3, description := "c", status := "not_started", created := 0 }
    (by decide) (by decide) (by decide)

-- Claim C3 --------------------------------------------------------------

/-- C3: for every collection whose IDs are positive (the data-model
invariant) and every valid input (non-empty description, status one of the
three enum values or omitted), Create succeeds with an ID exceeding every
existing ID and equal to max+1 (1 on the empty collection), and an immediate
Get of that ID returns the identical Item (all four fields). -/
theorem createAssignsNextIdAndGetRoundTrips (env : Env) (st : GoState)
    (d s : String)
    (hd : d ≠ "")
    (hs : s = "" ∨ s = "not_started" ∨ s = "in_progress" ∨ s = "completed")
    (hpos : ∀ k ∈ collectKeys st.itemsList, 0 < k) :
    ∃ it : Item, (createItem env st d s).result = Except.ok it ∧
      (∀ k ∈ collectKeys st.itemsList, k < it.id) ∧
      (st.itemsList = [] → it.id = 1) ∧
      (st.itemsList ≠ [] → it.id - 1 ∈ collectKeys st.itemsList) ∧
      getItemByID (createItem env st d s).state.itemsList it.id = Except.ok it := by
  rw [createItem_of_valid env st d s hd hs]
  refine ⟨_, rfl, ?_, ?_, ?_, ?_⟩
  · intro k hk
    have := highestKey_ge (collectKeys st.itemsList) k hk
    show k < highestKey (collectKeys st.itemsList) + 1
    omega
  · intro hnil
    show highestKey (collectKeys st.itemsList) + 1 = 1
    simp [hnil, collectKeys, highestKey]
  · intro hne
    show highestKey (collectKeys st.itemsList) + 1 - 1 ∈ collectKeys st.itemsList
    have hkeys : collectKeys st.itemsList ≠ [] := by
      intro hc
      apply hne
      unfold collectKeys at hc
      exact List.map_eq_nil_iff.mp hc
    have hmem := highestKey_mem (collectKeys st.itemsList) hkeys hpos
    have harith : highestKey (collectKeys st.itemsList) + 1 - 1 =
        highestKey (collectKeys st.itemsList) := by omega
    rw [harith]
    exact hmem
  · show getItemByID
        (mapInsert st.itemsList (highestKey (collectKeys st.itemsList) + 1)
          (newItem (highestKey (collectKeys st.itemsList) + 1) d
            (if s ≠ "" then s else "not_started") env.now))
        (highestKey (collectKeys st.itemsList) + 1) = Except.ok _
    have hk0 := highestKey_nonneg (collectKeys st.itemsList)
    unfold getItemByID
    rw [if_neg (by omega),
      if_pos (List.length_pos.mpr (mapInsert_ne_nil st.itemsList _ _)),
      lookupItem_mapInsert_self]

/-- Witness for `createAssignsNextIdAndGetRoundTrips` on a one-item store. -/
theorem createAssignsNextIdAndGetRoundTrips_witness :
    ∃ it : Item, (createItem envOk stOne "buy milk" "").result = Except.ok it ∧
      (∀ k ∈ collectKeys stOne.itemsList, k < it.id) ∧
      (stOne.itemsList = [] → it.id = 1) ∧
      (stOne.itemsList ≠ [] → it.id - 1 ∈ collectKeys stOne.itemsList) ∧
      getItemByID (createItem envOk stOne "buy milk" "").state.itemsList it.id =
        Except.ok it :=
  createAssignsNextIdAndGetRoundTrips envOk stOne "buy milk" ""
    (by decide) (Or.inl rfl) (by decide)

-- Claim C5 --------------------------------------------------------------

/-- C5, counterexample: deleting the only item and then getting its ID does
not yield the NotFound error — the code replies "no items available"
instead, because `GetItemByID` checks emptiness before the lookup. -/
theorem deleteThenGetNotNotFound_cex :
    (deleteItem envOk stOne 1).result = Except.ok () ∧
      getItemByID (deleteItem envOk stOne 1).state.itemsList 1 =
        Except.error Err.noItemsAvailable ∧
      getItemByID (deleteItem envOk stOne 1).state.itemsList 1 ≠
        Except.error Err.itemNotFound := by
  decide

/-- C5, amended: after a successful Delete of an ID, a Get of that ID yields
NotFound when the collection is still non-empty and NoItemsAvailable when
the delete emptied it; Delete of an absent positive ID yields NotFound and
leaves the collection (and the file) untouched; Delete of a non-positive ID
yields InvalidID and also leaves everything untouched. -/
theorem deleteGetSemantics (env : Env) (st : GoState) (i : Int) :
    ((deleteItem env st i).result = Except.ok () →
      getItemByID (deleteItem env st i).state.itemsList i =
        (if (deleteItem env st i).state.itemsList = []
          then Except.error Err.noItemsAvailable
          else Except.error Err.itemNotFound)) ∧
    (0 < i → lookupItem st.itemsList i = none →
      (deleteItem env st i).result = Except.error Err.itemNotFound ∧
        (deleteItem env st i).state = st ∧ (deleteItem env st i).log = noCommit) ∧
    (i ≤ 0 →
      (deleteItem env st i).result = Except.error Err.invalidID ∧
        (deleteItem env st i).state = st ∧ (deleteItem env st i).log = noCommit) := by
  refine ⟨?_, ?_, ?_⟩
  · intro hok
    obtain ⟨hipos, hlk, hst⟩ := deleteItem_ok_shape env st i hok
    rw [hst]
    unfold getItemByID
    rw [if_neg (by omega)]
    by_cases hnil : mapErase st.itemsList i = []
    · rw [if_pos hnil, if_neg (by simp [hnil])]
    · rw [if_neg hnil, if_pos (List.length_pos.mpr hnil), lookupItem_mapErase_self]
  · intro hipos hlk
    unfold deleteItem
    rw [if_neg (by omega), hlk]
    exact ⟨rfl, rfl, rfl⟩
  · intro hle
    unfold deleteItem
    rw [if_pos hle]
    exact ⟨rfl, rfl, rfl⟩

/-- Witness for `deleteGetSemantics`: deleting ID 1 from a two-item store
and then getting it yields the NotFound error. -/
theorem deleteGetSemantics_witness :
    getItemByID (deleteItem envOk stTwo 1).state.itemsList 1 =
      (if (deleteItem envOk stTwo 1).state.itemsList = []
        then Except.error Err.noItemsAvailable
        else Except.error Err.itemNotFound) :=
  (deleteGetSemantics envOk stTwo 1).1 (by decide)

-- Claim C6 --------------------------------------------------------------

/-- C6, counterexample: Update on an absent ID with an empty description
yields the validation error, not NotFound — validation runs before the
existence check, so the claim fails for "every description and status". -/
theorem updateUnknownIdValidationFirst_cex :
    (updateItem envOk { itemsList := [], itemsDatafile := "f" }
        { id := 5, description := "", status := "not_started", created := 0 }).result =
      Except.error Err.descriptionEmpty ∧
    (updateItem envOk { itemsList := [], itemsDatafile := "f" }
        { id := 5, description := "", status := "not_started", created := 0 }).result ≠
      Except.error Err.itemNotFound := by
  decide

/-- C6, amended: Update on an absent positive ID with valid inputs
(non-empty description, status one of the three enum values) yields NotFound
and leaves the collection and the file unchanged; invalid inputs are
rejected first by validation, also without mutation. -/
theorem updateUnknownIdNotFoundNoMutation (env : Env) (st : GoState) (it : Item)
    (hid : 0 < it.id) (hd : it.description ≠ "")
    (hs : it.status = "not_started" ∨ it.status = "in_progress" ∨
      it.status = "completed")
    (habs : lookupItem st.itemsList it.id = none) :
    (updateItem env st it).result = Except.error Err.itemNotFound ∧
      (updateItem env st it).state = st ∧
      (updateItem env st it).log = noCommit := by
  have hns : ¬ (it.status ≠ "not_started" ∧ it.status ≠ "in_progress" ∧
      it.status ≠ "completed") := by
    rintro ⟨h1, h2, h3⟩
    rcases hs with h | h | h <;> contradiction
  unfold updateItem
  rw [if_neg (by omega), if_neg hd, if_neg hns, habs]
  exact ⟨rfl, rfl, rfl⟩

/-- Witness for `updateUnknownIdNotFoundNoMutation` on a one-item store and
the absent ID 5. -/
theorem updateUnknownIdNotFoundNoMutation_witness :
    (updateItem envOk stOne
        { id := 5, description := "new text", status := "completed", created := 0 }).result =
      Except.error Err.itemNotFound ∧
      (updateItem envOk stOne
        { id := 5, description := "new text", status := "completed", created := 0 }).state =
        stOne ∧
      (updateItem envOk stOne
        { id := 5, description := "new text", status := "completed", created := 0 }).log =
        noCommit :=
  updateUnknownIdNotFoundNoMutation envOk stOne
    { id := 5, description := "new text", status := "completed", created := 0 }
    (by decide) (by decide) (Or.inr (Or.inr rfl)) (by decide)

end Todo

namespace Todo

-- Claim C7 --------------------------------------------------------------

/-- C7: a Create or Update whose inputs fail validation (empty description,
or a supplied status outside the three enum values — for Create an empty
status means "omitted" and is valid per §4.1) returns a validation error and
leaves both the in-memory collection and the persisted file untouched:
`commitFile` is never invoked for a rejected request. -/
theorem validationRejectsWithoutEffects (env : Env) (st : GoState) (it : Item) :
    ((it.description = "" ∨ (it.status ≠ "" ∧ it.status ≠ "not_started" ∧
        it.status ≠ "in_progress" ∧ it.status ≠ "completed")) →
      ∃ e, (createItem env st it.description it.status).result = Except.error e ∧
        isValidationErr e = true ∧
        (createItem env st it.description it.status).state = st ∧
        (createItem env st it.description it.status).log = noCommit) ∧
    ((it.description = "" ∨ (it.status ≠ "not_started" ∧
        it.status ≠ "in_progress" ∧ it.status ≠ "completed")) →
      ∃ e, (updateItem env st it).result = Except.error e ∧
        isValidationErr e = true ∧
        (updateItem env st it).state = st ∧
        (updateItem env st it).log = noCommit) := by
  constructor
  · intro hbad
    unfold createItem
    by_cases hd : it.description = ""
    · rw [if_pos hd]
      exact ⟨Err.descriptionEmpty, rfl, rfl, rfl, rfl⟩
    · have hs : it.status ≠ "" ∧ it.status ≠ "not_started" ∧
          it.status ≠ "in_progress" ∧ it.status ≠ "completed" := by
        rcases hbad with h | h
        · exact absurd h hd
        · exact h
      rw [if_neg hd, if_pos hs]
      exact ⟨Err.invalidStatus, rfl, rfl, rfl, rfl⟩
  · intro hbad
    unfold updateItem
    by_cases hi : it.id ≤ 0
    · rw [if_pos hi]
      exact ⟨Err.invalidID, rfl, rfl, rfl, rfl⟩
    · rw [if_neg hi]
      by_cases hd : it.description = ""
      · rw [if_pos hd]
        exact ⟨Err.descriptionEmpty, rfl, rfl, rfl, rfl⟩
      · have hs : it.status ≠ "not_started" ∧ it.status ≠ "in_progress" ∧
            it.status ≠ "completed" := by
          rcases hbad with h | h
          · exact absurd h hd
          · exact h
        rw [if_neg hd, if_pos hs]
        exact ⟨Err.invalidStatus, rfl, rfl, rfl, rfl⟩

/-- Witness for `validationRejectsWithoutEffects` on an empty description. -/
theorem validationRejectsWithoutEffects_witness :
    (∃ e, (createItem envOk stOne "" "not_started").result = Except.error e ∧
      isValidationErr e = true ∧
      (createItem envOk stOne "" "not_started").state = stOne ∧
      (createItem envOk stOne "" "not_started").log = noCommit) ∧
    (∃ e, (updateItem envOk stOne
        { id := 1, description := "", status := "not_started", created := 0 }).result =
        Except.error e ∧
      isValidationErr e = true ∧
      (updateItem envOk stOne
        { id := 1, description := "", status := "not_started", created := 0 }).state = stOne ∧
      (updateItem envOk stOne
        { id := 1, description := "", status := "not_started", created := 0 }).log =
        noCommit) :=
  ⟨(validationRejectsWithoutEffects envOk stOne
      { id := 1, description := "", status := "not_started", created := 0 }).1
      (Or.inl rfl),
   (validationRejectsWithoutEffects envOk stOne
      { id := 1, description := "", status := "not_started", created := 0 }).2
      (Or.inl rfl)⟩

-- Claim C10 -------------------------------------------------------------

/-- C10: a successful Create never overwrites an existing item — the fresh
ID is not among the existing keys, and every previously existing (ID, Item)
binding is still present, unchanged, after the Create. -/
theorem createNeverOverwrites (env : Env) (st : GoState) (d s : String)
    (it : Item)
    (hok : (createItem env st d s).result = Except.ok it) :
    it.id ∉ collectKeys st.itemsList ∧
      ∀ k v, lookupItem st.itemsList k = some v →
        lookupItem (createItem env st d s).state.itemsList k = some v := by
  obtain ⟨hid, -, hstate⟩ := createItem_ok_shape env st d s it hok
  constructor
  · intro hmem
    have := highestKey_ge (collectKeys st.itemsList) it.id hmem
    omega
  · intro k v hkv
    rw [hstate]
    have hk : k ≠ it.id := by
      intro hc
      have hmem : k ∈ collectKeys st.itemsList := by
        unfold collectKeys
        exact List.mem_map.mpr ⟨(k, v), lookupItem_some_mem st.itemsList k v hkv, rfl⟩
      have := highestKey_ge (collectKeys st.itemsList) k hmem
      omega
    rw [lookupItem_mapInsert_of_ne st.itemsList it.id k it hk]
    exact hkv

/-- Witness for `createNeverOverwrites` on a one-item store. -/
theorem createNeverOverwrites_witness :
    ({ id := 2, description := "buy milk", status := "not_started", created := 0 } :
        Item).id ∉ collectKeys stOne.itemsList ∧
      lookupItem (createItem envOk stOne "buy milk" "").state.itemsList 1 =
        some (sampleItem 1) :=
  ⟨(createNeverOverwrites envOk stOne "buy milk" ""
      { id := 2, description := "buy milk", status := "not_started", created := 0 }
      (by decide)).1,
   (createNeverOverwrites envOk stOne "buy milk" ""
      { id := 2, description := "buy milk", status := "not_started", created := 0 }
      (by decide)).2 1 (sampleItem 1) (by decide)⟩

-- Claim C9 --------------------------------------------------------------

/-- C9: for every command of one of the five Facade-submitted types, the
serializer loop body sends exactly one Response on the command's reply
channel — never zero, never more than one. -/
theorem exactlyOneResponsePerCommand (env : Env) (st : GoState) (cmd : Command)
    (h : cmd.type = CreateCmd ∨ cmd.type = UpdateCmd ∨ cmd.type = DeleteCmd ∨
      cmd.type = ListAllCmd ∨ cmd.type = ListCmd) :
    (runCmd env st cmd).sends.length = 1 := by
  unfold runCmd
  rcases h with h | h | h | h | h
  · rw [if_pos h]
    cases hres : (createItem env (reloadStorage env st) cmd.description cmd.status).result with
    | error e => rfl
    | ok v => rfl
  · rw [if_neg (show ¬ cmd.type = CreateCmd by rw [h]; decide), if_pos h]
    cases hres : (updateItem env (reloadStorage env st)
        { id := cmd.id, description := cmd.description, status := cmd.status,
          created := 0 }).result with
    | error e => rfl
    | ok v => rfl
  · rw [if_neg (show ¬ cmd.type = CreateCmd by rw [h]; decide),
      if_neg (show ¬ cmd.type = UpdateCmd by rw [h]; decide), if_pos h]
    cases hres : (deleteItem env (reloadStorage env st) cmd.id).result with
    | error e => rfl
    | ok v => rfl
  · rw [if_neg (show ¬ cmd.type = CreateCmd by rw [h]; decide),
      if_neg (show ¬ cmd.type = UpdateCmd by rw [h]; decide),
      if_neg (show ¬ cmd.type = DeleteCmd by rw [h]; decide), if_pos h]
    cases hres : getAllItems (reloadStorage env st).itemsList with
    | error e => rfl
    | ok v => rfl
  · rw [if_neg (show ¬ cmd.type = CreateCmd by rw [h]; decide),
      if_neg (show ¬ cmd.type = UpdateCmd by rw [h]; decide),
      if_neg (show ¬ cmd.type = DeleteCmd by rw [h]; decide),
      if_neg (show ¬ cmd.type = ListAllCmd by rw [h]; decide), if_pos h]
    cases hres : getItemByID (reloadStorage env st).itemsList cmd.id with
    | error e => rfl
    | ok v => rfl

/-- Witness for `exactlyOneResponsePerCommand` on a Delete command. -/
theorem exactlyOneResponsePerCommand_witness :
    (runCmd envOk stOne (deleteCommand 1)).sends.length = 1 :=
  exactlyOneResponsePerCommand envOk stOne (deleteCommand 1)
    (Or.inr (Or.inr (Or.inl rfl)))

-- Claim C4 --------------------------------------------------------------

/-- C4, counterexample: on the empty collection, ListAll does not succeed —
`GetAllItems` replies with the "no items available" error, which the
serializer sends back as the response's error. -/
theorem listAllEmptyCollectionErrors_cex :
    (runCmd envOk { itemsList := [], itemsDatafile := "f" } listAllCommand).sends =
      [errResponse Err.noItemsAvailable] := by
  decide

/-- C4, amended: for every state, a ListAll command replies with the full
(post-reload) collection when it is non-empty, and with the
"no items available" error when it is empty; in either case no persistence
happens. -/
theorem listAllRepliesFullCollectionOrError (env : Env) (st : GoState) :
    (runCmd env st listAllCommand).sends =
      [if (reloadStorage env st).itemsList = []
        then errResponse Err.noItemsAvailable
        else itemsResponse (reloadStorage env st).itemsList] ∧
    (runCmd env st listAllCommand).log = noCommit := by
  unfold runCmd
  rw [if_neg (show ¬ listAllCommand.type = CreateCmd by decide),
    if_neg (show ¬ listAllCommand.type = UpdateCmd by decide),
    if_neg (show ¬ listAllCommand.type = DeleteCmd by decide),
    if_pos (show listAllCommand.type = ListAllCmd by decide)]
  by_cases hm : (reloadStorage env st).itemsList = []
  · rw [if_pos hm]
    have hg : getAllItems (reloadStorage env st).itemsList =
        Except.error Err.noItemsAvailable := by
      rw [hm]
      rfl
    rw [hg]
    exact ⟨rfl, rfl⟩
  · rw [if_neg hm]
    have hg : getAllItems (reloadStorage env st).itemsList =
        Except.ok (reloadStorage env st).itemsList := by
      unfold getAllItems
      rw [if_pos (List.length_pos.mpr hm)]
    rw [hg]
    exact ⟨rfl, rfl⟩

end Todo

namespace Todo

-- Claim C1 --------------------------------------------------------------

/-- C1, counterexample: with a disk that fails both the reload read and the
persist write, a Delete of an existing item still replies with no error —
`reloadStorage` discards `Open`'s error (`_ =`) and `commitFile` discards
`Save`'s error, so neither failure reaches the Facade caller. -/
theorem ioErrorSilentlyDiscarded_cex :
    envBad.loadResult = Except.error Err.ioError ∧
      (runCmd envBad stOne (deleteCommand 1)).sends =
        [{ error := none, item := defaultItem, items := [] }] ∧
      (runCmd envBad stOne (deleteCommand 1)).log.dropped = [Err.ioError] := by
  decide

/-- C1, amended: IOError/ParseError arising during the reload step or the
persist step never surface to the Facade caller — every response the
serializer sends carries only operation-level errors (validation, not-found,
no-items), never an I/O or parse error; the disk failures are logged and
dropped instead. -/
theorem diskErrorsNeverSurfaceInResponses (env : Env) (st : GoState)
    (cmd : Command) :
    ∀ r ∈ (runCmd env st cmd).sends,
      r.error ≠ some Err.ioError ∧ r.error ≠ some Err.parseError := by
  intro r hr
  unfold runCmd at hr
  split at hr
  · split at hr
    · rename_i e heq
      simp only [List.mem_singleton] at hr
      subst hr
      rcases (createItem_error_effects _ _ _ _ _ heq).1 with he | he <;> subst he <;>
        exact ⟨by decide, by decide⟩
    · simp only [List.mem_singleton] at hr
      subst hr
      simp [itemResponse]
  · split at hr
    · split at hr
      · rename_i e heq
        simp only [List.mem_singleton] at hr
        subst hr
        rcases (updateItem_error_effects _ _ _ _ heq).1 with he | he | he | he <;>
          subst he <;> exact ⟨by decide, by decide⟩
      · simp only [List.mem_singleton] at hr
        subst hr
        simp [itemResponse]
    · split at hr
      · split at hr
        · rename_i e heq
          simp only [List.mem_singleton] at hr
          subst hr
          rcases (deleteItem_error_effects _ _ _ _ heq).1 with he | he <;>
            subst he <;> exact ⟨by decide, by decide⟩
        · simp only [List.mem_singleton] at hr
          subst hr
          simp
      · split at hr
        · split at hr
          · rename_i e heq
            simp only [List.mem_singleton] at hr
            subst hr
            have he := getAllItems_error_cases _ _ heq
            subst he
            exact ⟨by decide, by decide⟩
          · simp only [List.mem_singleton] at hr
            subst hr
            simp [itemsResponse]
        · split at hr
          · split at hr
            · rename_i e heq
              simp only [List.mem_singleton] at hr
              subst hr
              rcases getItemByID_error_cases _ _ _ heq with he | he | he <;>
                subst he <;> exact ⟨by decide, by decide⟩
            · simp only [List.mem_singleton] at hr
              subst hr
              simp [itemResponse]
          · simp at hr

/-- Witness for `diskErrorsNeverSurfaceInResponses` on a Delete of an absent
ID. -/
theorem diskErrorsNeverSurfaceInResponses_witness :
    (errResponse Err.itemNotFound).error ≠ some Err.ioError ∧
      (errResponse Err.itemNotFound).error ≠ some Err.parseError :=
  diskErrorsNeverSurfaceInResponses envOk stOne (deleteCommand 5)
    (errResponse Err.itemNotFound) (by decide)

-- Claim C8 --------------------------------------------------------------

/-- C8: serialization is stable and idempotent — saving the collection
loaded from a saved file reproduces the saved file exactly
(Save(Load(Save(C))) == Save(C)), and the loaded collection has exactly the
same bindings as the original for every ID (all item fields survive the
round trip losslessly). -/
theorem saveLoadSaveRoundTrip (m : Items) (hwf : ItemsWF m) :
    saveFile (loadFile (saveFile m)) = saveFile m ∧
      ∀ k : Int, lookupItem (loadFile (saveFile m)) k = lookupItem m k := by
  constructor
  · show List.insertionSort entryLE (List.insertionSort entryLE m) =
      List.insertionSort entryLE m
    exact List.Sorted.insertionSort_eq (List.sorted_insertionSort entryLE m)
  · intro k
    show lookupItem (List.insertionSort entryLE m) k = lookupItem m k
    exact lookupItem_eq_of_perm m (List.insertionSort entryLE m)
      (List.perm_insertionSort entryLE m).symm hwf k

/-- Witness for `saveLoadSaveRoundTrip` on a two-item collection whose key
order in the file ("10" before "2") differs from numeric order. -/
theorem saveLoadSaveRoundTrip_witness :
    saveFile (loadFile (saveFile [(2, sampleItem 2), (10, sampleItem 10)])) =
        saveFile [(2, sampleItem 2), (10, sampleItem 10)] ∧
      lookupItem (loadFile (saveFile [(2, sampleItem 2), (10, sampleItem 10)])) 10 =
        lookupItem [(2, sampleItem 2), (10, sampleItem 10)] 10 :=
  ⟨(saveLoadSaveRoundTrip [(2, sampleItem 2), (10, sampleItem 10)] (by decide)).1,
   (saveLoadSaveRoundTrip [(2, sampleItem 2), (10, sampleItem 10)] (by decide)).2 10⟩

end Todo
